import Mathlib

/-!
# Verification of dependants-sync (src/dependants-sync.js)

This file gives a shallow embedding of the logic of `src/dependants-sync.js`
and proves properties about it.

Conventions of the embedding:
* GraphQL node identifiers are modelled by an arbitrary type `Id` with
  decidable equality for the ancestor resolver (the script uses strings;
  the driver below instantiates `Id := String`).
* A JS value that may be `null`/`undefined` is modelled by `Option`.
* An `async` call that may throw is modelled by `Except String`, the
  error carrying `error.message`.
* The parent-lookup GraphQL query (`octokit.graphql` inside
  `findParentInitiativeIssue`) is modelled by a function
  `fetch : Id → Except String (Option (Issue Id))`:
  `Except.error e` models a thrown request error, `Except.ok none` models a
  response whose `node` is not an issue (`!issue`), and `Except.ok (some i)`
  models a fetched issue.
* The `while (true)` loop of `findParentInitiativeIssue` is modelled with
  explicit fuel; `findParentGo_isSome` proves the fuel used by
  `findParentInitiativeIssue` is never exhausted, so the fuel is invisible
  at the top level.
* `core.info` logging inside `findParentInitiativeIssue` is not modelled
  (the resolver result is); the run-level log messages are modelled below.
-/

/-- Decidable equality for `Except`, used to evaluate concrete resolver
results in the witnesses below. -/
def exceptDecEq {e a : Type} [DecidableEq e] [DecidableEq a] :
    (x y : Except e a) → Decidable (x = y)
  | Except.ok x, Except.ok y =>
    if h : x = y then isTrue (by rw [h])
    else isFalse (by intro hc; cases hc; exact h rfl)
  | Except.ok _, Except.error _ => isFalse (by intro hc; cases hc)
  | Except.error _, Except.ok _ => isFalse (by intro hc; cases hc)
  | Except.error x, Except.error y =>
    if h : x = y then isTrue (by rw [h])
    else isFalse (by intro hc; cases hc; exact h rfl)

instance {e a : Type} [DecidableEq e] [DecidableEq a] : DecidableEq (Except e a) :=
  exceptDecEq

/-- The `issueType` object of a parent, as selected by the GraphQL query:
`issueType { id name }`.  Only `name` is read by the script. -/
structure IssueType where
  name : String
deriving DecidableEq

/-- The `parent` object of a fetched issue: `parent { id ... issueType { ... } }`.
`issueType` may be `null` for issues without a type, modelled by `Option`. -/
structure ParentInfo (Id : Type) where
  id : Id
  issueType : Option IssueType
deriving DecidableEq

/-- A fetched issue node: `node { ... on Issue { id ... parent { ... } } }`.
`parent` is `null` for a root issue. -/
structure Issue (Id : Type) where
  id : Id
  parent : Option (ParentInfo Id)
deriving DecidableEq

/-- `const maxDepth = 50;` in `findParentInitiativeIssue`. -/
def maxDepth : Nat := 50

/-- The body of the `while (true)` loop of `findParentInitiativeIssue`
(lines 201-240 of `dependants-sync.js`), with explicit fuel.

Per iteration, in source order:
1. `if (visited.has(currentId)) return null;`  (cycle guard)
2. `if (depth > maxDepth) return null;`        (depth guard)
3. `visited.add(currentId); depth++;`
4. one GraphQL fetch of `currentId` — a thrown request error propagates
   (`Except.error`), `!issue || !issue.parent` returns `null`;
5. `issue.parent.issueType.name` is read inside `try`/`catch`: a missing
   `issueType` (modelled `none`) throws inside the `try`, is caught, and
   the walk continues upward; a matching name returns `parent.id`;
6. otherwise `currentId = parent.id` and the loop repeats.

The second component of the result counts the fetches performed.
`none` means the fuel ran out (proved impossible for the fuel used by
`findParentInitiativeIssue` in `findParentGo_isSome`). -/
def findParentGo {Id : Type} [DecidableEq Id]
    (fetch : Id → Except String (Option (Issue Id))) (target : String) :
    Nat → List Id → Nat → Id → Option (Except String (Option Id) × Nat)
  | 0, _, _, _ => none
  | fuel + 1, visited, depth, currentId =>
    if currentId ∈ visited then some (Except.ok none, 0)
    else if maxDepth < depth then some (Except.ok none, 0)
    else
      match fetch currentId with
      | Except.error e => some (Except.error e, 1)
      | Except.ok none => some (Except.ok none, 1)
      | Except.ok (some issue) =>
        match issue.parent with
        | none => some (Except.ok none, 1)
        | some parent =>
          match parent.issueType with
          | some t =>
            if t.name = target then some (Except.ok (some parent.id), 1)
            else
              (findParentGo fetch target fuel (currentId :: visited) (depth + 1) parent.id).map
                (fun r => (r.1, r.2 + 1))
          | none =>
            (findParentGo fetch target fuel (currentId :: visited) (depth + 1) parent.id).map
              (fun r => (r.1, r.2 + 1))

/-- `findParentInitiativeIssue(currentId)` (lines 175-241): walks the parent
chain of `startId` looking for a parent whose issue type name equals
`target` (`TOP_PARENT_ISSUE_TYPE`, default `"Initiative"`).  Returns the
result of the walk together with the number of fetches it performed.
Fuel 52 suffices: the loop runs at most 52 iterations (one per depth value
0..51), see `findParentGo_isSome`. -/
def findParentInitiativeIssue {Id : Type} [DecidableEq Id]
    (fetch : Id → Except String (Option (Issue Id))) (target : String) (startId : Id) :
    Except String (Option Id) × Nat :=
  (findParentGo fetch target 52 [] 0 startId).getD (Except.ok none, 0)

/-- The identifier reached after `n` parent steps from `s`, following the
parent links the fetch function exposes; `none` when the chain stops
earlier (no issue, no parent, or a failed fetch). -/
def chainIds {Id : Type} (fetch : Id → Except String (Option (Issue Id))) (s : Id) :
    Nat → Option Id
  | 0 => some s
  | n + 1 =>
    match chainIds fetch s n with
    | none => none
    | some cur =>
      match fetch cur with
      | Except.ok (some issue) => issue.parent.map ParentInfo.id
      | _ => none

/-- `isChain fetch cur l` holds when, starting at `cur`, the successive
parent identifiers are exactly the elements of `l` and the last one is a
root: every node on the way is fetched successfully as an issue, each
non-final node has a parent whose id is the next list element, and the
final node has no parent. -/
def isChain {Id : Type} [DecidableEq Id]
    (fetch : Id → Except String (Option (Issue Id))) : Id → List Id → Bool
  | cur, [] =>
    match fetch cur with
    | Except.ok (some issue) => issue.parent.isNone
    | _ => false
  | cur, b :: rest =>
    match fetch cur with
    | Except.ok (some issue) =>
      match issue.parent with
      | some p => decide (p.id = b) && isChain fetch b rest
      | none => false
    | _ => false

/-- Modelled from the spec (section 4.1): `resolveAncestor` walks the parent
chain upward and returns the identifier of the first parent met whose type
label equals the target, treating a missing type label as a mismatch, or
`none` when a parentless node is reached.  The cycle and depth guards are
irrelevant on the acyclic, depth-bounded chains this spec function is
compared on, so they are omitted here; the bound is the recursion depth. -/
def resolveAncestorSpec {Id : Type}
    (fetch : Id → Except String (Option (Issue Id))) (target : String) :
    Nat → Id → Option Id
  | 0, _ => none
  | k + 1, cur =>
    match fetch cur with
    | Except.ok (some issue) =>
      match issue.parent with
      | none => none
      | some p =>
        match p.issueType with
        | some t =>
          if t.name = target then some p.id else resolveAncestorSpec fetch target k p.id
        | none => resolveAncestorSpec fetch target k p.id
    | _ => none

/-- Replace a missing (`null`) issue type on the parent of an issue by the
well-formed type named `bad`; used to compare the treatment of malformed
type data with that of a non-matching type. -/
def scrubIssue {Id : Type} (bad : String) (i : Issue Id) : Issue Id :=
  { i with parent := i.parent.map (fun p => { p with issueType := some (p.issueType.getD ⟨bad⟩) }) }

/-- Lift `scrubIssue` to the fetch function. -/
def scrubFetch {Id : Type} (bad : String)
    (fetch : Id → Except String (Option (Issue Id))) :
    Id → Except String (Option (Issue Id)) :=
  fun id => (fetch id).map (Option.map (scrubIssue bad))

/-!
## The synchronization driver (`run`, lines 77-369)

The driver is embedded as a pure function over
* an `Env` holding the environment variables the script reads, and
* a `World` holding the responses of the external collaborators
  (the Node `URL` parser and the GitHub GraphQL gateway).

Identifiers at the driver level are the strings GraphQL returns.
The returned `RunOutput` records the `core.info` messages the driver
emits (`logs`), the field mutations it issues (`updates`), and the
message passed to `core.setFailed` by the top-level `catch`, if any
(`failed`; `none` means the run completed without a fatal error).
`core.info` messages emitted inside `findParentInitiativeIssue`,
`getFieldOptionIdFromItem` and `updateProjectField` are not modelled;
the run-level messages are modelled verbatim.
-/

/-- The `field { name id }` object inside a project item field value;
only `name` is read. -/
structure FieldRef where
  name : String
deriving DecidableEq

/-- One node of `projectItem.fieldValues.nodes`: for values that are not
single-select values the GraphQL fragment produces an empty object, so
both members are optional. -/
structure FieldValueNode where
  field : Option FieldRef
  optionId : Option String
deriving DecidableEq

/-- A project item node as loaded by `loadAllProjectItems`.
`content` is `none` when the item has no linked content at all,
`some none` when the linked content is not an issue (the `... on Issue`
fragment yields an object without `id`), and `some (some id)` for an
item linked to issue `id`. -/
structure ProjectItem where
  id : String
  fieldValues : Option (List FieldValueNode)
  content : Option (Option String)
deriving DecidableEq

/-- A project field as returned by the project-details query: its id, its
name and its GraphQL `__typename`. -/
structure ProjField where
  id : String
  name : String
  typename : String
deriving DecidableEq

/-- The project-details query result: `projectV2 { id fields { nodes } }`. -/
structure ProjectData where
  id : String
  fields : List ProjField
deriving DecidableEq

/-- One call of `updateProjectField` (the `updateProjectV2ItemFieldValue`
mutation), with the variables the script passes. -/
structure Update where
  projectId : String
  itemId : String
  fieldId : String
  optionId : String
deriving DecidableEq

/-- The environment variables the script reads.  `none` models an unset
variable. -/
structure Env where
  github_token : Option String
  project_url : Option String
  sync_fields : Option String
  top_parent_issue_type : Option String
deriving DecidableEq

/-- The external collaborators of one run:
* `urlPathname` models `new URL(u).pathname`; `none` models the `URL`
  constructor throwing on a malformed locator;
* `projectData` models the project-details query result
  (`none` models a response whose `projectV2` is `null`);
* `items` models the item list accumulated by `loadAllProjectItems`;
* `fetch` models the parent-lookup query of `findParentInitiativeIssue`;
* `mutError` models the `updateProjectV2ItemFieldValue` mutation:
  `some e` means the call for that update throws with message `e`. -/
structure World where
  urlPathname : String → Option String
  projectData : Option ProjectData
  items : List ProjectItem
  fetch : String → Except String (Option (Issue String))
  mutError : Update → Option String

/-- The result of one run, see the section comment. -/
structure RunOutput where
  logs : List String
  updates : List Update
  failed : Option String
deriving DecidableEq

/-- JS truthiness of an environment variable: both an unset variable and
the empty string are falsy (`process.env.X` tests like `if (!token)`). -/
def envString (v : Option String) : Option String :=
  match v with
  | none => none
  | some s => if s = "" then none else some s

/-- `s.split(sep)` of JS for a one-character separator, on the character
list of `s`: splitting the empty string gives `[""]`, and separators at
the ends produce empty segments, as in JS. -/
def splitChars (sep : Char) : List Char → List (List Char)
  | [] => [[]]
  | c :: cs =>
    match splitChars sep cs with
    | [] => if c = sep then [[], []] else [[c]]
    | h :: t => if c = sep then [] :: h :: t else (c :: h) :: t

/-- `s.split(sep)` of JS for a one-character separator. -/
def jsSplit (sep : Char) (s : String) : List String :=
  (splitChars sep s.toList).map String.mk

/-- `s.trim()` of JS: drop whitespace from both ends. -/
def jsTrim (s : String) : String :=
  String.mk (((s.toList.dropWhile Char.isWhitespace).reverse.dropWhile
    Char.isWhitespace).reverse)

/-- Value of a nonempty digit string. -/
def digitsToNat (ds : List Char) : Nat :=
  ds.foldl (fun acc c => acc * 10 + (c.toNat - 48)) 0

/-- `parseInt(s, 10)` on an optional path segment: `none` models `NaN`
(in particular `parseInt(undefined, 10)`).  Leading whitespace is
dropped, an optional sign is read, then the longest digit prefix; an
empty digit prefix gives `NaN`. -/
def jsParseInt (s? : Option String) : Option Int :=
  match s? with
  | none => none
  | some s =>
    let t := s.toList.dropWhile Char.isWhitespace
    let signAndRest : Int × List Char :=
      match t with
      | '-' :: r => (-1, r)
      | '+' :: r => (1, r)
      | _ => (1, t)
    let ds := signAndRest.2.takeWhile Char.isDigit
    if ds.isEmpty then none else some (signAndRest.1 * (digitsToNat ds : Nat))

/-- Lines 92-98: split the locator pathname on `/`, drop empty segments
(`filter(Boolean)`), require `pathParts[0] === "orgs"` and
`pathParts.length >= 3`, and extract `orgLogin = pathParts[1]` and
`projectNumber = parseInt(pathParts[3], 10)`. -/
def parseProjectUrl (projectUrl pathname : String) : Except String (String × Option Int) :=
  let pathParts := (jsSplit '/' pathname).filter (fun s => s ≠ "")
  if pathParts.head? = some "orgs" ∧ 3 ≤ pathParts.length then
    Except.ok (pathParts.getD 1 "", jsParseInt pathParts[3]?)
  else
    Except.error ("Cannot parse PROJECT_URL: " ++ projectUrl)

/-- Line 140: `SYNC_FIELDS` split on commas, each entry trimmed; an unset
or empty variable gives the empty list. -/
def syncFieldNames (env : Env) : List String :=
  match envString env.sync_fields with
  | none => []
  | some s => (jsSplit ',' s).map jsTrim

/-- Lines 141-143: a schema field is kept for syncing iff its name is in
the configured list and its `__typename` is `ProjectV2SingleSelectField`. -/
def eligibleField (syncFields : List String) (f : ProjField) : Bool :=
  syncFields.contains f.name && f.typename == "ProjectV2SingleSelectField"

/-- `getFieldOptionIdFromItem` (lines 250-258): find the first field value
whose `field.name` equals `fieldName` and return its `optionId`; a missing
`fieldValues`, no match, or a falsy `optionId` (absent or empty string)
gives `null`. -/
def getFieldOptionIdFromItem (projectItem : ProjectItem) (fieldName : String) : Option String :=
  match projectItem.fieldValues with
  | none => none
  | some nodes =>
    match nodes.find? (fun node =>
      match node.field with
      | some f => f.name == fieldName
      | none => false) with
    | none => none
    | some fv =>
      match fv.optionId with
      | none => none
      | some s => if s = "" then none else some s

/-- The per-item field loop (lines 341-362): for each field to sync, read
the option id of the parent initiative item; skip the field when it is
unset, otherwise issue one `updateProjectField` call.  A throwing mutation
propagates (second component `some e`) and stops the loop.  Returns the
issued calls (including a throwing one) and the propagated error. -/
def processFields (mutError : Update → Option String) (projectId itemId : String)
    (parentItem : ProjectItem) : List ProjField → List Update × Option String
  | [] => ([], none)
  | field :: rest =>
    match getFieldOptionIdFromItem parentItem field.name with
    | none => processFields mutError projectId itemId parentItem rest
    | some v =>
      let u : Update := ⟨projectId, itemId, field.id, v⟩
      match mutError u with
      | some e => ([u], some e)
      | none =>
        let r := processFields mutError projectId itemId parentItem rest
        (u :: r.1, r.2)

/-- The per-item loop (lines 297-363): skip items without issue content,
resolve the parent initiative issue, look its project item up in the
loaded item list, and sync the fields.  An error thrown by the resolver or
by a mutation propagates (third component `some e`) and stops the loop.
Returns the emitted run-level log messages, the issued update calls and
the propagated error. -/
def processItems (fetch : String → Except String (Option (Issue String)))
    (mutError : Update → Option String) (target projectId : String)
    (fields : List ProjField) (allItems : List ProjectItem) :
    List ProjectItem → List String × List Update × Option String
  | [] => ([], [], none)
  | item :: rest =>
    match item.content with
    | none =>
      let r := processItems fetch mutError target projectId fields allItems rest
      (("Skipping project item " ++ item.id ++ " because it has no linked content.") :: r.1,
        r.2.1, r.2.2)
    | some none =>
      let r := processItems fetch mutError target projectId fields allItems rest
      (("Skipping project item " ++ item.id ++ " because it has no issue content.") :: r.1,
        r.2.1, r.2.2)
    | some (some issueNodeId) =>
      let procLog := "Processing project item " ++ item.id ++ " linked to issue " ++ issueNodeId
      match (findParentInitiativeIssue fetch target issueNodeId).1 with
      | Except.error e => ([procLog], [], some e)
      | Except.ok none =>
        let r := processItems fetch mutError target projectId fields allItems rest
        (procLog :: ("No Initiative parent found for issue " ++ issueNodeId ++
            ". Skipping update.") :: r.1,
          r.2.1, r.2.2)
      | Except.ok (some parentId) =>
        let foundLog := "Found parent initiative issue with id: " ++ parentId
        match allItems.find? (fun it =>
          match it.content with
          | some (some cid) => cid == parentId
          | _ => false) with
        | none =>
          let r := processItems fetch mutError target projectId fields allItems rest
          (procLog :: foundLog :: ("No project item found for parent initiative issue " ++
              parentId ++ ". Skipping update.") :: r.1,
            r.2.1, r.2.2)
        | some parentItem =>
          let fr := processFields mutError projectId item.id parentItem fields
          match fr.2 with
          | some e => ([procLog, foundLog], fr.1, some e)
          | none =>
            let r := processItems fetch mutError target projectId fields allItems rest
            (procLog :: foundLog :: r.1, fr.1 ++ r.2.1, r.2.2)

/-- The driver `run()` (lines 77-369) with its top-level `try`/`catch`:
a thrown error ends the run with a single `core.setFailed(error.message)`
call, modelled by `failed = some message`. -/
def run (env : Env) (w : World) : RunOutput :=
  match envString env.github_token with
  | none => ⟨[], [], some "GITHUB_TOKEN is required"⟩
  | some _ =>
    match envString env.project_url with
    | none => ⟨[], [], some "PROJECT_URL is required in the environment."⟩
    | some projectUrl =>
      match w.urlPathname projectUrl with
      | none => ⟨[], [], some "Invalid URL"⟩
      | some pathname =>
        match parseProjectUrl projectUrl pathname with
        | Except.error e => ⟨[], [], some e⟩
        | Except.ok _orgAndNumber =>
          match w.projectData with
          | none => ⟨["Querying project details..."], [],
              some "Unable to retrieve project details from the given URL."⟩
          | some projectData =>
            let logs1 := ["Querying project details...",
              "Found project id: " ++ projectData.id]
            let fieldsToSync := projectData.fields.filter (eligibleField (syncFieldNames env))
            if fieldsToSync.isEmpty then
              ⟨logs1, [], some "Could not find any valid single select fields to sync in the project."⟩
            else
              let logs2 := logs1 ++
                ["Found fields to sync: " ++
                    String.intercalate (", ") (fieldsToSync.map ProjField.name),
                  "Loading all project items..."]
              if w.items.isEmpty then
                ⟨logs2 ++ ["No project items found in this project. Exiting."], [], none⟩
              else
                let logs3 := logs2 ++
                  ["Loaded " ++ toString w.items.length ++ " project items."]
                let target := (envString env.top_parent_issue_type).getD "Initiative"
                let r := processItems w.fetch w.mutError target projectData.id
                  fieldsToSync w.items w.items
                match r.2.2 with
                | some e => ⟨logs3 ++ r.1, r.2.1, some e⟩
                | none =>
                  ⟨(logs3 ++ r.1) ++ ["Update process completed for all project items."],
                    r.2.1, none⟩

/-- Whether the parent fetched for `id` carries an issue type whose name
equals `target`; `false` also when the fetch fails, the node is not an
issue, there is no parent, or the parent has no type. -/
def parentLabelMatches {Id : Type} (fetch : Id → Except String (Option (Issue Id)))
    (target : String) (id : Id) : Bool :=
  match fetch id with
  | Except.ok (some issue) =>
    match issue.parent with
    | some p =>
      match p.issueType with
      | some t => t.name == target
      | none => false
    | none => false
  | _ => false

/-- Whether an `Except` value is a success. -/
def exceptIsOk {e a : Type} : Except e a → Bool
  | Except.ok _ => true
  | Except.error _ => false

/-- The acceptance condition of lines 94-96 on the locator pathname: the
first nonempty path segment is `orgs` and there are at least three
nonempty segments. -/
def orgScopePath (pathname : String) : Prop :=
  ((jsSplit '/' pathname).filter (fun s => s ≠ "")).head? = some "orgs" ∧
  3 ≤ ((jsSplit '/' pathname).filter (fun s => s ≠ "")).length

instance (pathname : String) : Decidable (orgScopePath pathname) := by
  unfold orgScopePath
  infer_instance

/-!
## Concrete instances used by the witnesses and counterexamples
-/

/-- An acyclic chain `A → B → C` where `B` has type `Task` and `C` has
type `Initiative` and no parent. -/
def exFetchChain : String → Except String (Option (Issue String)) := fun id =>
  if id = "A" then Except.ok (some ⟨"A", some ⟨"B", some ⟨"Task"⟩⟩⟩)
  else if id = "B" then Except.ok (some ⟨"B", some ⟨"C", some ⟨"Initiative"⟩⟩⟩)
  else if id = "C" then Except.ok (some ⟨"C", none⟩)
  else Except.ok none

/-- A two-node parent cycle in which both parents carry the type
`Initiative`. -/
def exFetchCycleMatch : String → Except String (Option (Issue String)) := fun id =>
  if id = "A" then Except.ok (some ⟨"A", some ⟨"B", some ⟨"Initiative"⟩⟩⟩)
  else if id = "B" then Except.ok (some ⟨"B", some ⟨"A", some ⟨"Initiative"⟩⟩⟩)
  else Except.ok none

/-- A two-node parent cycle (on `Id := Bool`) in which both parents carry
the non-matching type `Task`. -/
def exFetchCycleNoMatch : Bool → Except String (Option (Issue Bool)) := fun id =>
  if id then Except.ok (some ⟨true, some ⟨false, some ⟨"Task"⟩⟩⟩)
  else Except.ok (some ⟨false, some ⟨true, some ⟨"Task"⟩⟩⟩)

/-- An infinite chain of pairwise distinct issues `n → n + 1`, none of
type `Initiative`. -/
def exFetchDeepChain : Nat → Except String (Option (Issue Nat)) := fun n =>
  Except.ok (some ⟨n, some ⟨n + 1, some ⟨"Task"⟩⟩⟩)

/-- A chain `A → B → C` in which the intermediate parent `B` has a
missing (`null`) issue type. -/
def exFetchMalformed : String → Except String (Option (Issue String)) := fun id =>
  if id = "A" then Except.ok (some ⟨"A", some ⟨"B", none⟩⟩)
  else if id = "B" then Except.ok (some ⟨"B", some ⟨"C", some ⟨"Initiative"⟩⟩⟩)
  else if id = "C" then Except.ok (some ⟨"C", none⟩)
  else Except.ok none

/-- A parent project item with options set for fields `F1` and `F2`. -/
def exParentTwoFields : ProjectItem :=
  ⟨"parent-item", some [⟨some ⟨"F1"⟩, some "o1"⟩, ⟨some ⟨"F2"⟩, some "o2"⟩],
    some (some "parent-issue")⟩

/-- A parent project item with an option set only for field `F2`. -/
def exParentSkip : ProjectItem :=
  ⟨"parent-item2", some [⟨some ⟨"F2"⟩, some "o2"⟩], some (some "parent-issue2")⟩

/-- Two single-select fields to sync. -/
def exTwoFields : List ProjField :=
  [⟨"fid1", "F1", "ProjectV2SingleSelectField"⟩, ⟨"fid2", "F2", "ProjectV2SingleSelectField"⟩]

/-- A mutation gateway that throws on the update for field `fid1` and
succeeds elsewhere. -/
def exMutFail : Update → Option String := fun u =>
  if u.fieldId = "fid1" then some "update failed" else none

/-- An environment with credential, locator and one configured field. -/
def exEnvOK : Env :=
  ⟨some "test-token", some "https://github.com/orgs/my-org/projects/1", some "Initiative", none⟩

/-- A parent-lookup gateway in which `issue-1` has the `Initiative`-typed
parent `parent-1`, itself a root. -/
def exFetchHappy : String → Except String (Option (Issue String)) := fun id =>
  if id = "issue-1" then Except.ok (some ⟨"issue-1", some ⟨"parent-1", some ⟨"Initiative"⟩⟩⟩)
  else if id = "parent-1" then Except.ok (some ⟨"parent-1", none⟩)
  else Except.ok none

/-- Two project items: `item-1` is linked to `issue-1`, and `item-2` is
linked to `parent-1` and carries the option `opt-X` for `Initiative`. -/
def exItemsHappy : List ProjectItem :=
  [⟨"item-1", some [], some (some "issue-1")⟩,
   ⟨"item-2", some [⟨some ⟨"Initiative"⟩, some "opt-X"⟩], some (some "parent-1")⟩]

/-- A world in which the run issues exactly one update. -/
def exWorldOK : World :=
  ⟨fun _ => some "/orgs/my-org/projects/1",
   some ⟨"project-id", [⟨"field-id", "Initiative", "ProjectV2SingleSelectField"⟩]⟩,
   exItemsHappy, exFetchHappy, fun _ => none⟩

/-- The same world with zero loaded project items. -/
def exWorldNoItems : World :=
  ⟨fun _ => some "/orgs/my-org/projects/1",
   some ⟨"project-id", [⟨"field-id", "Initiative", "ProjectV2SingleSelectField"⟩]⟩,
   [], exFetchHappy, fun _ => none⟩

/-- An environment configuring the fields `Team` and `Notes`. -/
def exEnvTeamNotes : Env :=
  ⟨some "test-token", some "https://github.com/orgs/my-org/projects/1", some "Team,Notes", none⟩

/-- A world whose schema carries `Team` and `Notes` only with
non-single-select typenames, and with one loaded item. -/
def exWorldTeamNotes : World :=
  ⟨fun _ => some "/orgs/my-org/projects/1",
   some ⟨"project-id", [⟨"t1", "Team", "ProjectV2Field"⟩, ⟨"n1", "Notes", "ProjectV2TextField"⟩]⟩,
   exItemsHappy, exFetchHappy, fun _ => none⟩

/-- The loop of `findParentInitiativeIssue` never exhausts fuel
`52 - depth`: each iteration either returns or increments `depth`, and the
depth guard fires once `depth` exceeds 50. -/
theorem findParentGo_isSome {Id : Type} [DecidableEq Id]
    (fetch : Id → Except String (Option (Issue Id))) (target : String) :
    ∀ (fuel depth : Nat) (visited : List Id) (cur : Id),
      depth ≤ 51 → 52 ≤ fuel + depth →
      (findParentGo fetch target fuel visited depth cur).isSome := by
  intro fuel
  induction fuel with
  | zero => intro depth visited cur h1 h2; omega
  | succ f ih =>
    intro depth visited cur h1 h2
    unfold findParentGo
    by_cases hv : cur ∈ visited
    · simp [hv]
    · by_cases hd : maxDepth < depth
      · simp [hv, hd]
      · have hd' : depth ≤ 50 := by simpa [maxDepth] using hd
        cases hf : fetch cur with
        | error e => simp [hv, hd, hf]
        | ok o =>
          cases o with
          | none => simp [hv, hd, hf]
          | some issue =>
            cases hp : issue.parent with
            | none => simp [hv, hd, hf, hp]
            | some parent =>
              have hrec := ih (depth + 1) (cur :: visited) parent.id (by omega) (by omega)
              cases ht : parent.issueType with
              | some t =>
                by_cases hn : t.name = target
                · simp [hv, hd, hf, hp, ht, hn]
                · simp [hv, hd, hf, hp, ht, hn, Option.isSome_map, hrec]
              | none =>
                simp [hv, hd, hf, hp, ht, Option.isSome_map, hrec]

/-- The number of fetches performed by the loop, started at counter value
`depth`, is at most `51 - depth`: a fetch happens only on iterations whose
counter value is between `depth` and 50. -/
theorem findParentGo_count_le {Id : Type} [DecidableEq Id]
    (fetch : Id → Except String (Option (Issue Id))) (target : String) :
    ∀ (fuel depth : Nat) (visited : List Id) (cur : Id)
      (r : Except String (Option Id)) (n : Nat),
      findParentGo fetch target fuel visited depth cur = some (r, n) →
      n ≤ 51 - depth := by
  intro fuel
  induction fuel with
  | zero => intro depth visited cur r n h; simp [findParentGo] at h
  | succ f ih =>
    intro depth visited cur r n h
    unfold findParentGo at h
    by_cases hv : cur ∈ visited
    · simp [hv] at h
      omega
    · by_cases hd : maxDepth < depth
      · simp [hv, hd] at h
        omega
      · have hd' : depth ≤ 50 := by simpa [maxDepth] using hd
        simp only [hv, hd, if_false, if_true, ite_false, ite_true] at h
        cases hf : fetch cur with
        | error e =>
          rw [hf] at h
          simp at h
          omega
        | ok o =>
          rw [hf] at h
          cases o with
          | none =>
            simp at h
            omega
          | some issue =>
            dsimp only at h
            cases hp : issue.parent with
            | none =>
              rw [hp] at h
              simp at h
              omega
            | some parent =>
              rw [hp] at h
              dsimp only at h
              cases ht : parent.issueType with
              | some t =>
                rw [ht] at h
                by_cases hn : t.name = target
                · simp [hn] at h
                  omega
                · simp only [hn, if_false, ite_false] at h
                  cases hgo : findParentGo fetch target f (cur :: visited) (depth + 1) parent.id with
                  | none => rw [hgo] at h; simp at h
                  | some r' =>
                    rw [hgo] at h
                    simp at h
                    have := ih (depth + 1) (cur :: visited) parent.id r'.1 r'.2 (by rw [hgo])
                    obtain ⟨h1, h2⟩ := h
                    omega
              | none =>
                rw [ht] at h
                cases hgo : findParentGo fetch target f (cur :: visited) (depth + 1) parent.id with
                | none => rw [hgo] at h; simp at h
                | some r' =>
                  rw [hgo] at h
                  simp at h
                  have := ih (depth + 1) (cur :: visited) parent.id r'.1 r'.2 (by rw [hgo])
                  obtain ⟨h1, h2⟩ := h
                  omega

/-- Unfolding of `isChain` at a root node. -/
theorem isChain_nil_iff {Id : Type} [DecidableEq Id]
    (fetch : Id → Except String (Option (Issue Id))) (cur : Id) :
    isChain fetch cur [] = true ↔
      ∃ issue, fetch cur = Except.ok (some issue) ∧ issue.parent = none := by
  simp only [isChain]
  cases hf : fetch cur with
  | error e => simp
  | ok o =>
    cases o with
    | none => simp
    | some issue => simp [Option.isNone_iff_eq_none]

/-- Unfolding of `isChain` at a non-root node. -/
theorem isChain_cons_iff {Id : Type} [DecidableEq Id]
    (fetch : Id → Except String (Option (Issue Id))) (cur b : Id) (rest : List Id) :
    isChain fetch cur (b :: rest) = true ↔
      ∃ issue p, fetch cur = Except.ok (some issue) ∧ issue.parent = some p ∧
        p.id = b ∧ isChain fetch b rest = true := by
  simp only [isChain]
  cases hf : fetch cur with
  | error e => simp
  | ok o =>
    cases o with
    | none => simp
    | some issue =>
      cases hp : issue.parent with
      | none => simp [hp]
      | some p => simp [hp, and_assoc]

/-- On an acyclic chain that reaches a root within the depth bound, with no
node already visited, the loop computes exactly what the spec-level
`resolveAncestorSpec` computes: neither guard ever fires. -/
theorem findParentGo_chain {Id : Type} [DecidableEq Id]
    (fetch : Id → Except String (Option (Issue Id))) (target : String) :
    ∀ (l : List Id) (fuel depth : Nat) (visited : List Id) (cur : Id),
      isChain fetch cur l = true →
      (cur :: l).Nodup →
      (∀ x ∈ cur :: l, x ∉ visited) →
      depth + l.length ≤ 50 →
      l.length + 2 ≤ fuel →
      ∃ n, findParentGo fetch target fuel visited depth cur =
        some (Except.ok (resolveAncestorSpec fetch target (l.length + 1) cur), n) := by
  intro l
  induction l with
  | nil =>
    intro fuel depth visited cur hchain hnodup hvis hdepth hfuel
    obtain ⟨issue, hf, hp⟩ := (isChain_nil_iff fetch cur).mp hchain
    obtain ⟨f, rfl⟩ : ∃ f, fuel = f + 1 := ⟨fuel - 1, by omega⟩
    have hv : cur ∉ visited := hvis cur (List.mem_cons_self cur [])
    have hd : ¬ maxDepth < depth := by simp [maxDepth]; omega
    refine ⟨1, ?_⟩
    unfold findParentGo
    simp [hv, hd, hf, hp, resolveAncestorSpec]
  | cons b rest ih =>
    intro fuel depth visited cur hchain hnodup hvis hdepth hfuel
    obtain ⟨issue, p, hf, hp, hpid, hrest⟩ := (isChain_cons_iff fetch cur b rest).mp hchain
    obtain ⟨f, rfl⟩ : ∃ f, fuel = f + 1 := ⟨fuel - 1, by omega⟩
    have hv : cur ∉ visited := hvis cur (List.mem_cons_self cur _)
    have hd : ¬ maxDepth < depth := by
      simp only [List.length_cons] at hdepth
      simp [maxDepth]; omega
    have hcur_notin : cur ∉ b :: rest := by
      have := hnodup
      rw [List.nodup_cons] at this
      exact this.1
    have hnodup' : (b :: rest).Nodup := by
      rw [List.nodup_cons] at hnodup
      exact hnodup.2
    have hvis' : ∀ x ∈ b :: rest, x ∉ cur :: visited := by
      intro x hx
      rw [List.mem_cons]
      push_neg
      constructor
      · intro hxc
        subst hxc
        exact hcur_notin hx
      · exact hvis x (List.mem_cons_of_mem cur hx)
    have hdepth' : depth + 1 + rest.length ≤ 50 := by
      simp only [List.length_cons] at hdepth
      omega
    have hfuel' : rest.length + 2 ≤ f := by
      simp only [List.length_cons] at hfuel
      omega
    cases ht : p.issueType with
    | some t =>
      by_cases hn : t.name = target
      · refine ⟨1, ?_⟩
        unfold findParentGo
        simp only [List.length_cons, resolveAncestorSpec, hf, hp, ht, hn, if_true,
          ite_true]
        simp [hv, hd, hf, hp, ht, hn, hpid]
      · obtain ⟨n, hgo⟩ := ih f (depth + 1) (cur :: visited) b hrest hnodup' hvis' hdepth' hfuel'
        refine ⟨n + 1, ?_⟩
        unfold findParentGo
        simp only [List.length_cons]
        have hspec : resolveAncestorSpec fetch target (rest.length + 1 + 1) cur =
            resolveAncestorSpec fetch target (rest.length + 1) b := by
          conv_lhs => unfold resolveAncestorSpec
          simp [hf, hp, ht, hn, hpid]
        rw [hspec]
        simp [hv, hd, hf, hp, ht, hn, hpid, hgo]
    | none =>
      obtain ⟨n, hgo⟩ := ih f (depth + 1) (cur :: visited) b hrest hnodup' hvis' hdepth' hfuel'
      refine ⟨n + 1, ?_⟩
      unfold findParentGo
      simp only [List.length_cons]
      have hspec : resolveAncestorSpec fetch target (rest.length + 1 + 1) cur =
          resolveAncestorSpec fetch target (rest.length + 1) b := by
        conv_lhs => unfold resolveAncestorSpec
        simp [hf, hp, ht, hpid]
      rw [hspec]
      simp [hv, hd, hf, hp, ht, hpid, hgo]

/-- A missing issue type on a parent behaves exactly like a well-formed
non-matching issue type: replacing every missing type by a type named
`bad ≠ target` does not change the walk at all (result and fetch count). -/
theorem findParentGo_scrub {Id : Type} [DecidableEq Id]
    (fetch : Id → Except String (Option (Issue Id))) (target bad : String)
    (hbad : bad ≠ target) :
    ∀ (fuel depth : Nat) (visited : List Id) (cur : Id),
      findParentGo (scrubFetch bad fetch) target fuel visited depth cur =
        findParentGo fetch target fuel visited depth cur := by
  intro fuel
  induction fuel with
  | zero => intro depth visited cur; rfl
  | succ f ih =>
    intro depth visited cur
    unfold findParentGo
    by_cases hv : cur ∈ visited
    · simp [hv]
    · by_cases hd : maxDepth < depth
      · simp [hv, hd]
      · cases hf : fetch cur with
        | error e => simp [hv, hd, scrubFetch, hf, Except.map]
        | ok o =>
          cases o with
          | none => simp [hv, hd, scrubFetch, hf, Except.map]
          | some issue =>
            cases hp : issue.parent with
            | none => simp [hv, hd, scrubFetch, hf, Except.map, scrubIssue, hp]
            | some p =>
              cases ht : p.issueType with
              | some t =>
                by_cases hn : t.name = target
                · simp [hv, hd, scrubFetch, hf, Except.map, scrubIssue, hp, ht, hn]
                · simp [hv, hd, scrubFetch, hf, Except.map, scrubIssue, hp, ht, hn, ih]
              | none =>
                simp [hv, hd, scrubFetch, hf, Except.map, scrubIssue, hp, ht, hbad, ih]

/-- If no fetched parent anywhere in the graph carries the target type
label, the loop can only return `NotFound` (`Except.ok none`) or a fetch
error: it never returns an ancestor id. -/
theorem findParentGo_no_match {Id : Type} [DecidableEq Id]
    (fetch : Id → Except String (Option (Issue Id))) (target : String)
    (hnomatch : ∀ (id : Id) (issue : Issue Id) (p : ParentInfo Id) (t : IssueType),
      fetch id = Except.ok (some issue) → issue.parent = some p →
      p.issueType = some t → t.name ≠ target)
    (hfetchok : ∀ id : Id, ∃ o, fetch id = Except.ok o) :
    ∀ (fuel depth : Nat) (visited : List Id) (cur : Id)
      (r : Except String (Option Id)) (n : Nat),
      findParentGo fetch target fuel visited depth cur = some (r, n) →
      r = Except.ok none := by
  intro fuel
  induction fuel with
  | zero => intro depth visited cur r n h; simp [findParentGo] at h
  | succ f ih =>
    intro depth visited cur r n h
    unfold findParentGo at h
    by_cases hv : cur ∈ visited
    · simp [hv] at h
      exact h.1.symm
    · by_cases hd : maxDepth < depth
      · simp [hv, hd] at h
        exact h.1.symm
      · simp only [hv, hd, if_false, ite_false] at h
        obtain ⟨o, hf⟩ := hfetchok cur
        rw [hf] at h
        cases o with
        | none =>
          simp at h
          exact h.1.symm
        | some issue =>
          dsimp only at h
          cases hp : issue.parent with
          | none =>
            rw [hp] at h
            simp at h
            exact h.1.symm
          | some p =>
            rw [hp] at h
            dsimp only at h
            cases ht : p.issueType with
            | some t =>
              rw [ht] at h
              have hn : t.name ≠ target := hnomatch cur issue p t hf hp ht
              simp only [hn, if_false, ite_false] at h
              cases hgo : findParentGo fetch target f (cur :: visited) (depth + 1) p.id with
              | none => rw [hgo] at h; simp at h
              | some r' =>
                rw [hgo] at h
                simp at h
                have := ih (depth + 1) (cur :: visited) p.id r'.1 r'.2 (by rw [hgo])
                rw [← h.1]
                exact this
            | none =>
              rw [ht] at h
              cases hgo : findParentGo fetch target f (cur :: visited) (depth + 1) p.id with
              | none => rw [hgo] at h; simp at h
              | some r' =>
                rw [hgo] at h
                simp at h
                have := ih (depth + 1) (cur :: visited) p.id r'.1 r'.2 (by rw [hgo])
                rw [← h.1]
                exact this

/-- When no mutation throws, the per-item field loop issues exactly the
updates obtained by reading the option of the parent item for each field
to sync, skipping the unset ones, and it propagates no error. -/
theorem processFields_ok_eq (mutError : Update → Option String)
    (pid iid : String) (parentItem : ProjectItem)
    (hok : ∀ u, mutError u = none) :
    ∀ fields : List ProjField,
      processFields mutError pid iid parentItem fields =
        (fields.filterMap (fun f => (getFieldOptionIdFromItem parentItem f.name).map
          (fun v => Update.mk pid iid f.id v)), none) := by
  intro fields
  induction fields with
  | nil => rfl
  | cons f rest ih =>
    unfold processFields
    cases hg : getFieldOptionIdFromItem parentItem f.name with
    | none => simp [List.filterMap_cons, hg, ih]
    | some v => simp [List.filterMap_cons, hg, hok, ih]

/-- Every update issued by the per-item field loop comes from a field of
the field list, carries the given project and item ids, and carries the
option id read from the parent item for that field. -/
theorem processFields_updates_mem (mutError : Update → Option String)
    (pid iid : String) (parentItem : ProjectItem) :
    ∀ (fields : List ProjField) (u : Update),
      u ∈ (processFields mutError pid iid parentItem fields).1 →
      ∃ f ∈ fields, ∃ v, getFieldOptionIdFromItem parentItem f.name = some v ∧
        u = Update.mk pid iid f.id v := by
  intro fields
  induction fields with
  | nil => intro u h; simp [processFields] at h
  | cons f rest ih =>
    intro u h
    unfold processFields at h
    cases hg : getFieldOptionIdFromItem parentItem f.name with
    | none =>
      rw [hg] at h
      obtain ⟨g, hmem, v, hv, hu⟩ := ih u h
      exact ⟨g, List.mem_cons_of_mem f hmem, v, hv, hu⟩
    | some v =>
      rw [hg] at h
      dsimp only at h
      cases hm : mutError ⟨pid, iid, f.id, v⟩ with
      | some e =>
        rw [hm] at h
        simp at h
        exact ⟨f, List.mem_cons_self f rest, v, hg, h⟩
      | none =>
        rw [hm] at h
        dsimp only at h
        rcases List.mem_cons.mp h with h1 | h2
        · exact ⟨f, List.mem_cons_self f rest, v, hg, h1⟩
        · obtain ⟨g, hmem, v2, hv, hu⟩ := ih u h2
          exact ⟨g, List.mem_cons_of_mem f hmem, v2, hv, hu⟩

/-- Every update issued by the item loop comes from a field of the
field-to-sync list, with the run project id. -/
theorem processItems_updates_mem (fetch : String → Except String (Option (Issue String)))
    (mutError : Update → Option String) (target pid : String)
    (fields : List ProjField) (allItems : List ProjectItem) :
    ∀ (itemsLeft : List ProjectItem) (u : Update),
      u ∈ (processItems fetch mutError target pid fields allItems itemsLeft).2.1 →
      ∃ f ∈ fields, ∃ iid v, u = Update.mk pid iid f.id v := by
  intro itemsLeft
  induction itemsLeft with
  | nil => intro u h; simp [processItems] at h
  | cons item rest ih =>
    intro u h
    unfold processItems at h
    cases hc : item.content with
    | none =>
      rw [hc] at h
      exact ih u h
    | some o =>
      rw [hc] at h
      cases o with
      | none => exact ih u h
      | some issueNodeId =>
        dsimp only at h
        cases hr : (findParentInitiativeIssue fetch target issueNodeId).1 with
        | error e => rw [hr] at h; simp at h
        | ok po =>
          rw [hr] at h
          cases po with
          | none => exact ih u h
          | some parentId =>
            dsimp only at h
            cases hfind : allItems.find? (fun it =>
              match it.content with
              | some (some cid) => cid == parentId
              | _ => false) with
            | none =>
              rw [hfind] at h
              exact ih u h
            | some parentItem =>
              rw [hfind] at h
              dsimp only at h
              cases hfr : (processFields mutError pid item.id parentItem fields).2 with
              | some e =>
                rw [hfr] at h
                dsimp only at h
                obtain ⟨f, hmem, v, hv, hu⟩ :=
                  processFields_updates_mem mutError pid item.id parentItem fields u h
                exact ⟨f, hmem, item.id, v, hu⟩
              | none =>
                rw [hfr] at h
                dsimp only at h
                rcases List.mem_append.mp h with h1 | h2
                · obtain ⟨f, hmem, v, hv, hu⟩ :=
                    processFields_updates_mem mutError pid item.id parentItem fields u h1
                  exact ⟨f, hmem, item.id, v, hu⟩
                · exact ih u h2

/-- Every update issued by a run comes from a loaded schema field that is
both named in the configured sync list and typed
`ProjectV2SingleSelectField`, and it carries the project id of the loaded
project. -/
theorem run_updates_mem (env : Env) (w : World) (u : Update)
    (hu : u ∈ (run env w).updates) :
    ∃ pd, w.projectData = some pd ∧ ∃ f ∈ pd.fields,
      eligibleField (syncFieldNames env) f = true ∧
      ∃ iid v, u = Update.mk pd.id iid f.id v := by
  unfold run at hu
  split at hu
  · simp at hu
  split at hu
  · simp at hu
  split at hu
  · simp at hu
  split at hu
  · simp at hu
  split at hu
  · simp at hu
  next pd hpd =>
    dsimp only at hu
    split at hu
    · simp at hu
    split at hu
    · simp at hu
    split at hu <;>
    · dsimp only at hu
      obtain ⟨f, hmem, iid, v, hu⟩ :=
        processItems_updates_mem w.fetch w.mutError _ pd.id _ w.items w.items u hu
      rw [List.mem_filter] at hmem
      exact ⟨pd, hpd, f, hmem.1, hmem.2, iid, v, hu⟩

/-- The behaviour of a run depends on the loaded schema fields only
through the filtered fields-to-sync list: two schemas whose filtered
lists agree produce identical runs (same logs, same updates, same
failure), so fields excluded by the filter are silent. -/
theorem run_fields_filter_invariant (env : Env) (urlp : String → Option String)
    (pid : String) (fields1 fields2 : List ProjField) (items : List ProjectItem)
    (fetch : String → Except String (Option (Issue String)))
    (mutError : Update → Option String)
    (h : fields1.filter (eligibleField (syncFieldNames env)) =
         fields2.filter (eligibleField (syncFieldNames env))) :
    run env ⟨urlp, some ⟨pid, fields1⟩, items, fetch, mutError⟩ =
      run env ⟨urlp, some ⟨pid, fields2⟩, items, fetch, mutError⟩ := by
  unfold run
  dsimp only
  rw [h]

/-- Every run ends in exactly one of three ways: a single failure message
(the top-level catch), the trailing confirmation message after processing
at least one loaded item, or the early informational exit of a run that
loaded zero items. -/
theorem run_outcome_trichotomy (env : Env) (w : World) :
    (∃ m, (run env w).failed = some m) ∨
    ((run env w).failed = none ∧ w.items ≠ [] ∧
      (run env w).logs.getLast? = some "Update process completed for all project items.") ∨
    ((run env w).failed = none ∧ w.items = [] ∧
      (run env w).logs.getLast? = some "No project items found in this project. Exiting.") := by
  unfold run
  split
  · exact Or.inl ⟨_, rfl⟩
  split
  · exact Or.inl ⟨_, rfl⟩
  split
  · exact Or.inl ⟨_, rfl⟩
  split
  · exact Or.inl ⟨_, rfl⟩
  split
  · exact Or.inl ⟨_, rfl⟩
  next pd hpd =>
    by_cases hfe : (List.filter (eligibleField (syncFieldNames env)) pd.fields).isEmpty = true
    · exact Or.inl ⟨"Could not find any valid single select fields to sync in the project.",
        by simp [hfe]⟩
    · by_cases hit : w.items.isEmpty = true
      · refine Or.inr (Or.inr ⟨by simp [hfe, hit], List.isEmpty_iff.mp hit, ?_⟩)
        simp only [hfe, hit, if_true, if_false, ite_true, ite_false]
        exact List.getLast?_concat _
      · cases hr : (processItems w.fetch w.mutError
            ((envString env.top_parent_issue_type).getD "Initiative") pd.id
            (List.filter (eligibleField (syncFieldNames env)) pd.fields) w.items w.items).2.2 with
        | some e =>
          exact Or.inl ⟨e, by simp [hfe, hit, hr]⟩
        | none =>
          refine Or.inr (Or.inl ⟨by simp [hfe, hit, hr], ?_, ?_⟩)
          · intro hnil
            rw [hnil] at hit
            simp at hit
          · simp only [hfe, hit, hr, if_true, if_false, ite_true, ite_false]
            exact List.getLast?_concat _

/-- Claim C1: for every start node whose parent chain is acyclic and has
depth at most 50, and whose fetches succeed along the chain (`isChain`),
the ancestor resolver terminates (its fuel is never exhausted) and
returns exactly what the spec-level walk returns: the identifier of the
first ancestor met walking upward whose type label equals the target, or
`none` when the parentless last chain node is reached without a match. -/
theorem claim_C1 {Id : Type} [DecidableEq Id]
    (fetch : Id → Except String (Option (Issue Id))) (target : String)
    (s : Id) (l : List Id)
    (hchain : isChain fetch s l = true)
    (hnodup : (s :: l).Nodup)
    (hlen : l.length ≤ 50) :
    (findParentGo fetch target 52 [] 0 s).isSome ∧
    (findParentInitiativeIssue fetch target s).1 =
      Except.ok (resolveAncestorSpec fetch target (l.length + 1) s) := by
  obtain ⟨n, hgo⟩ := findParentGo_chain fetch target l 52 0 [] s hchain hnodup
    (by intro x hx; simp) (by omega) (by omega)
  constructor
  · rw [hgo]; rfl
  · unfold findParentInitiativeIssue
    rw [hgo]
    rfl

/-- Witness for C1 on the chain `A → B(Task) → C(Initiative, root)`. -/
theorem claim_C1_witness :
    isChain exFetchChain "A" ["B", "C"] = true ∧
    (("A" : String) :: ["B", "C"]).Nodup ∧
    (findParentInitiativeIssue exFetchChain "Initiative" "A").1 =
      Except.ok (resolveAncestorSpec exFetchChain "Initiative" 3 "A") :=
  ⟨by decide, by decide,
    (claim_C1 exFetchChain "Initiative" "A" ["B", "C"] (by decide) (by decide)
      (by decide)).2⟩

/-- Counterexample to C2 as stated: in the two-node parent cycle
`A → B → A` reachable in zero steps (the identifier at step 0 recurs at
step 2), where `B` carries the target type, the resolver returns `B`
rather than `NotFound`. -/
theorem claim_C2_counterexample :
    chainIds exFetchCycleMatch "A" 0 = some "A" ∧
    chainIds exFetchCycleMatch "A" 2 = some "A" ∧
    (findParentInitiativeIssue exFetchCycleMatch "Initiative" "A").1 =
      Except.ok (some "B") ∧
    (findParentInitiativeIssue exFetchCycleMatch "Initiative" "A").1 ≠
      Except.ok none :=
  ⟨by decide, by decide, by decide, by decide⟩

/-- Claim C2 (amended): for every parent graph containing a cycle
reachable within 50 steps of the start node, in which no fetched parent
carries the target type label and no fetch throws, the resolver
terminates with `NotFound` (null) — through the visited-set check, or
through the depth bound when the first revisit would fall beyond it. -/
theorem claim_C2 {Id : Type} [DecidableEq Id]
    (fetch : Id → Except String (Option (Issue Id))) (target : String) (s : Id)
    (hcycle : ∃ i c, i ≤ 50 ∧ 1 ≤ c ∧ (chainIds fetch s i).isSome ∧
      chainIds fetch s i = chainIds fetch s (i + c))
    (hnomatch : ∀ id : Id, parentLabelMatches fetch target id = false)
    (hfetchok : ∀ id : Id, exceptIsOk (fetch id) = true) :
    (findParentInitiativeIssue fetch target s).1 = Except.ok none := by
  have hnm : ∀ (id : Id) (issue : Issue Id) (p : ParentInfo Id) (t : IssueType),
      fetch id = Except.ok (some issue) → issue.parent = some p →
      p.issueType = some t → t.name ≠ target := by
    intro id issue p t hf hp ht hname
    have hm := hnomatch id
    unfold parentLabelMatches at hm
    rw [hf] at hm
    dsimp only at hm
    rw [hp] at hm
    dsimp only at hm
    rw [ht] at hm
    dsimp only at hm
    rw [hname] at hm
    simp at hm
  have hok : ∀ id : Id, ∃ o, fetch id = Except.ok o := by
    intro id
    have hm := hfetchok id
    cases hf : fetch id with
    | error e => rw [hf] at hm; simp [exceptIsOk] at hm
    | ok o => exact ⟨o, rfl⟩
  have hs := findParentGo_isSome fetch target 52 0 [] s (by omega) (by omega)
  obtain ⟨⟨r, n⟩, hgo⟩ := Option.isSome_iff_exists.mp hs
  have hr := findParentGo_no_match fetch target hnm hok 52 0 [] s r n hgo
  unfold findParentInitiativeIssue
  rw [hgo]
  simpa using hr

/-- Witness for the amended C2 on the typeless-match cycle
`true → false → true` (types all `Task`). -/
theorem claim_C2_witness :
    (findParentInitiativeIssue exFetchCycleNoMatch "Initiative" true).1 =
      Except.ok none :=
  claim_C2 exFetchCycleNoMatch "Initiative" true
    ⟨0, 2, by decide, by decide, by decide, by decide⟩
    (by decide) (by decide)

/-- Counterexample to C3 as stated: on a 52-deep chain of pairwise
distinct issues with no matching type, one resolution performs 51 parent
fetches, exceeding the claimed bound of 50. -/
theorem claim_C3_counterexample :
    (findParentInitiativeIssue exFetchDeepChain "Initiative" 0).2 = 51 ∧
    ¬ (findParentInitiativeIssue exFetchDeepChain "Initiative" 0).2 ≤ 50 :=
  ⟨by decide, by decide⟩

/-- Claim C3 (amended): for every input graph and start node the resolver
issues at most 51 parent fetches: the depth guard admits a fetch exactly
while the counter, which starts at zero and is incremented before each
fetch, is at most 50, so counter values 0..50 each admit one fetch. -/
theorem claim_C3 {Id : Type} [DecidableEq Id]
    (fetch : Id → Except String (Option (Issue Id))) (target : String) (s : Id) :
    (findParentInitiativeIssue fetch target s).2 ≤ 51 := by
  have hs := findParentGo_isSome fetch target 52 0 [] s (by omega) (by omega)
  obtain ⟨⟨r, n⟩, hgo⟩ := Option.isSome_iff_exists.mp hs
  have hb := findParentGo_count_le fetch target 52 0 [] s r n hgo
  unfold findParentInitiativeIssue
  rw [hgo]
  simpa using hb

/-- Claim C4: while processing one item, when no mutation throws, the
field loop issues exactly the updates obtained field by field from the
ancestor item: a field whose ancestor option is unset is skipped with no
mutation (so an existing descendant value is never cleared), and a field
whose ancestor option is set contributes exactly one update carrying
that option id.  The loop reads only the ancestor item and the
descendant item id — the descendant field values are not in the
signature of `processFields`, so no current value is read or compared. -/
theorem claim_C4 (mutError : Update → Option String) (pid iid : String)
    (parentItem : ProjectItem) (fields : List ProjField)
    (hok : ∀ u, mutError u = none) :
    processFields mutError pid iid parentItem fields =
      (fields.filterMap (fun f => (getFieldOptionIdFromItem parentItem f.name).map
        (fun v => Update.mk pid iid f.id v)), none) :=
  processFields_ok_eq mutError pid iid parentItem hok fields

/-- Witness for C4: `F1` is unset on the parent and skipped, `F2`
receives exactly one update. -/
theorem claim_C4_witness :
    processFields (fun _ => none) "P" "I" exParentSkip exTwoFields =
      (exTwoFields.filterMap (fun f => (getFieldOptionIdFromItem exParentSkip f.name).map
        (fun v => Update.mk "P" "I" f.id v)), none) :=
  claim_C4 (fun _ => none) "P" "I" exParentSkip exTwoFields (fun _ => rfl)

/-- Claim C5: every update a run issues targets a loaded schema field
that is both named in the configured sync list and typed
`ProjectV2SingleSelectField`; and the run is invariant under changing the
schema fields excluded by that filter, so excluded fields are never
updated and never erred on — the whole run output (logs, updates,
failure) is unchanged. -/
theorem claim_C5 :
    (∀ (env : Env) (w : World) (u : Update), u ∈ (run env w).updates →
      ∃ pd, w.projectData = some pd ∧ ∃ f ∈ pd.fields,
        (syncFieldNames env).contains f.name = true ∧
        f.typename = "ProjectV2SingleSelectField" ∧
        u.fieldId = f.id) ∧
    (∀ (env : Env) (urlp : String → Option String) (pid : String)
        (fields1 fields2 : List ProjField) (items : List ProjectItem)
        (fetch : String → Except String (Option (Issue String)))
        (mutError : Update → Option String),
      fields1.filter (eligibleField (syncFieldNames env)) =
        fields2.filter (eligibleField (syncFieldNames env)) →
      run env ⟨urlp, some ⟨pid, fields1⟩, items, fetch, mutError⟩ =
        run env ⟨urlp, some ⟨pid, fields2⟩, items, fetch, mutError⟩) := by
  constructor
  · intro env w u hu
    obtain ⟨pd, hpd, f, hf, helig, iid, v, hu⟩ := run_updates_mem env w u hu
    unfold eligibleField at helig
    rw [Bool.and_eq_true] at helig
    refine ⟨pd, hpd, f, hf, helig.1, by simpa using helig.2, ?_⟩
    rw [hu]
  · intro env urlp pid fields1 fields2 items fetch mutError h
    exact run_fields_filter_invariant env urlp pid fields1 fields2 items fetch mutError h

/-- Witness for C5 on the one-update happy-path world. -/
theorem claim_C5_witness :
    ∃ pd, exWorldOK.projectData = some pd ∧ ∃ f ∈ pd.fields,
      (syncFieldNames exEnvOK).contains f.name = true ∧
      f.typename = "ProjectV2SingleSelectField" ∧
      (Update.mk "project-id" "item-1" "field-id" "opt-X").fieldId = f.id :=
  claim_C5.1 exEnvOK exWorldOK ⟨"project-id", "item-1", "field-id", "opt-X"⟩ (by decide)

/-- Claim C6: a missing (`null`) issue type on a fetched parent is
non-fatal to the walk and is treated exactly like a non-matching type:
replacing every missing parent type by a well-formed type named
`bad ≠ target` changes neither the resolver result nor its fetch count,
so the walk continues upward past the malformed parent instead of
aborting. -/
theorem claim_C6 {Id : Type} [DecidableEq Id]
    (fetch : Id → Except String (Option (Issue Id))) (target bad : String) (s : Id)
    (hbad : bad ≠ target) :
    findParentInitiativeIssue (scrubFetch bad fetch) target s =
      findParentInitiativeIssue fetch target s := by
  unfold findParentInitiativeIssue
  rw [findParentGo_scrub fetch target bad hbad 52 0 [] s]

/-- Witness for C6 on the chain `A → B(no type) → C(Initiative)`: the
malformed parent `B` is walked past, and the scrubbed and original
graphs agree. -/
theorem claim_C6_witness :
    ("Task" : String) ≠ "Initiative" ∧
    findParentInitiativeIssue (scrubFetch "Task" exFetchMalformed) "Initiative" "A" =
      findParentInitiativeIssue exFetchMalformed "Initiative" "A" :=
  ⟨by decide, claim_C6 exFetchMalformed "Initiative" "Task" "A" (by decide)⟩

/-- Counterexample to C7 as stated: with the ancestor options for both
`F1` and `F2` set, a mutation failure on `F1` stops the field loop: the
error propagates and no update call is issued for `F2`. -/
theorem claim_C7_counterexample :
    getFieldOptionIdFromItem exParentTwoFields "F2" = some "o2" ∧
    processFields exMutFail "P" "I" exParentTwoFields exTwoFields =
      ([Update.mk "P" "I" "fid1" "o1"], some "update failed") ∧
    ∀ u ∈ (processFields exMutFail "P" "I" exParentTwoFields exTwoFields).1,
      u.fieldId ≠ "fid2" :=
  ⟨by decide, by decide, by decide⟩

/-- Claim C7 (amended): within one item, skips are independent: when
every issued mutation succeeds, every configured field whose ancestor
option is set receives its update, no matter which other fields are
skipped; a throwing mutation, however, stops the remaining fields of the
item (see the counterexample). -/
theorem claim_C7 (mutError : Update → Option String) (pid iid : String)
    (parentItem : ProjectItem) (fields : List ProjField) (f : ProjField) (v : String)
    (hok : ∀ u, mutError u = none)
    (hf : f ∈ fields)
    (hv : getFieldOptionIdFromItem parentItem f.name = some v) :
    Update.mk pid iid f.id v ∈ (processFields mutError pid iid parentItem fields).1 := by
  rw [processFields_ok_eq mutError pid iid parentItem hok fields]
  rw [List.mem_filterMap]
  exact ⟨f, hf, by rw [hv]; rfl⟩

/-- Witness for the amended C7: `F1` is skipped (unset on the parent),
yet `F2` still receives its update. -/
theorem claim_C7_witness :
    Update.mk "P" "I" "fid2" "o2" ∈
      (processFields (fun _ => none) "P" "I" exParentSkip exTwoFields).1 :=
  claim_C7 (fun _ => none) "P" "I" exParentSkip exTwoFields
    ⟨"fid2", "F2", "ProjectV2SingleSelectField"⟩ "o2" (fun _ => rfl)
    (by decide) (by decide)

/-- Claim C8: when credential and locator pass and the project loads, an
empty fields-to-sync filter result (in particular an empty configured
list) aborts the run fatally with the single error message of line 146,
before any project item is consulted: no updates are issued and the run
output does not depend on the loaded items at all. -/
theorem claim_C8 (env : Env) (w : World) (tok url pathname : String)
    (orgNum : String × Option Int) (pd : ProjectData)
    (htok : envString env.github_token = some tok)
    (hurl : envString env.project_url = some url)
    (hpath : w.urlPathname url = some pathname)
    (hparse : parseProjectUrl url pathname = Except.ok orgNum)
    (hpd : w.projectData = some pd)
    (hempty : pd.fields.filter (eligibleField (syncFieldNames env)) = []) :
    (run env w).failed =
      some "Could not find any valid single select fields to sync in the project." ∧
    (run env w).updates = [] ∧
    ∀ items2 : List ProjectItem,
      run env ⟨w.urlPathname, w.projectData, items2, w.fetch, w.mutError⟩ = run env w := by
  have hrun : ∀ w2 : World, w2.urlPathname = w.urlPathname → w2.projectData = w.projectData →
      run env w2 = ⟨["Querying project details...", "Found project id: " ++ pd.id], [],
        some "Could not find any valid single select fields to sync in the project."⟩ := by
    intro w2 h1 h2
    unfold run
    rw [htok]
    dsimp only
    rw [hurl]
    dsimp only
    rw [h1, hpath]
    dsimp only
    rw [hparse]
    dsimp only
    rw [h2, hpd]
    dsimp only
    rw [hempty]
    rfl
  refine ⟨?_, ?_, ?_⟩
  · rw [hrun w rfl rfl]
  · rw [hrun w rfl rfl]
  · intro items2
    rw [hrun w rfl rfl,
      hrun ⟨w.urlPathname, w.projectData, items2, w.fetch, w.mutError⟩ rfl rfl]

/-- Witness for C8: fields `Team` and `Notes` are configured but carry
non-single-select typenames, so the filter is empty and the run fails
before touching the loaded item. -/
theorem claim_C8_witness :
    (run exEnvTeamNotes exWorldTeamNotes).failed =
      some "Could not find any valid single select fields to sync in the project." ∧
    (run exEnvTeamNotes exWorldTeamNotes).updates = [] ∧
    ∀ items2 : List ProjectItem,
      run exEnvTeamNotes ⟨exWorldTeamNotes.urlPathname, exWorldTeamNotes.projectData,
        items2, exWorldTeamNotes.fetch, exWorldTeamNotes.mutError⟩ =
        run exEnvTeamNotes exWorldTeamNotes :=
  claim_C8 exEnvTeamNotes exWorldTeamNotes "test-token"
    "https://github.com/orgs/my-org/projects/1" "/orgs/my-org/projects/1"
    ("my-org", some 1)
    ⟨"project-id", [⟨"t1", "Team", "ProjectV2Field"⟩, ⟨"n1", "Notes", "ProjectV2TextField"⟩]⟩
    (by decide) (by decide) (by decide) (by decide) (by decide) (by decide)

/-- Claim C9: with credential and locator present and the locator parsed
by the URL library, the path check accepts exactly the organization-scope
pathnames (`orgs` first segment, at least three nonempty segments):
rejected pathnames produce the fatal parse message and a run output
independent of all gateway data (no remote call can be observed), and
accepted pathnames extract the organization (second segment) and the
parsed project number (fourth segment, `parseInt`). -/
theorem claim_C9 (env : Env) (w : World) (tok url pathname : String)
    (htok : envString env.github_token = some tok)
    (hurl : envString env.project_url = some url)
    (hpath : w.urlPathname url = some pathname) :
    (parseProjectUrl url pathname =
        Except.error ("Cannot parse PROJECT_URL: " ++ url) ↔ ¬ orgScopePath pathname) ∧
    (orgScopePath pathname →
      parseProjectUrl url pathname =
        Except.ok (((jsSplit '/' pathname).filter (fun s => s ≠ "")).getD 1 "",
          jsParseInt ((jsSplit '/' pathname).filter (fun s => s ≠ ""))[3]?)) ∧
    (¬ orgScopePath pathname →
      (run env w).failed = some ("Cannot parse PROJECT_URL: " ++ url) ∧
      (run env w).updates = [] ∧
      ∀ (pd2 : Option ProjectData) (items2 : List ProjectItem)
        (fetch2 : String → Except String (Option (Issue String)))
        (mut2 : Update → Option String),
        run env ⟨w.urlPathname, pd2, items2, fetch2, mut2⟩ = run env w) := by
  by_cases hshape : orgScopePath pathname
  · have hshape' := hshape
    unfold orgScopePath at hshape'
    have hparse : parseProjectUrl url pathname =
        Except.ok (((jsSplit '/' pathname).filter (fun s => s ≠ "")).getD 1 "",
          jsParseInt ((jsSplit '/' pathname).filter (fun s => s ≠ ""))[3]?) := by
      unfold parseProjectUrl
      rw [if_pos hshape']
    refine ⟨?_, fun _ => hparse, fun hn => absurd hshape hn⟩
    rw [hparse]
    simp [hshape]
  · have hshape' : ¬ (((jsSplit '/' pathname).filter (fun s => s ≠ "")).head? = some "orgs" ∧
        3 ≤ ((jsSplit '/' pathname).filter (fun s => s ≠ "")).length) := by
      intro hc
      exact hshape hc
    have hparse : parseProjectUrl url pathname =
        Except.error ("Cannot parse PROJECT_URL: " ++ url) := by
      unfold parseProjectUrl
      rw [if_neg hshape']
    have hrun : ∀ w2 : World, w2.urlPathname = w.urlPathname →
        run env w2 = ⟨[], [], some ("Cannot parse PROJECT_URL: " ++ url)⟩ := by
      intro w2 h1
      unfold run
      rw [htok]
      dsimp only
      rw [hurl]
      dsimp only
      rw [h1, hpath]
      dsimp only
      rw [hparse]
    refine ⟨by simp [hparse, hshape], fun hc => absurd hc hshape, fun _ => ⟨?_, ?_, ?_⟩⟩
    · rw [hrun w rfl]
    · rw [hrun w rfl]
    · intro pd2 items2 fetch2 mut2
      rw [hrun w rfl, hrun ⟨w.urlPathname, pd2, items2, fetch2, mut2⟩ rfl]

/-- Witness for C9 on the non-organization pathname `/my-org/projects/1`
(the shape of the locator the integration test expects to be rejected). -/
theorem claim_C9_witness :
    (parseProjectUrl "https://github.com/my-org/projects/1" "/my-org/projects/1" =
        Except.error ("Cannot parse PROJECT_URL: " ++ "https://github.com/my-org/projects/1") ↔
      ¬ orgScopePath "/my-org/projects/1") ∧
    (¬ orgScopePath "/my-org/projects/1") :=
  ⟨(claim_C9 ⟨some "test-token", some "https://github.com/my-org/projects/1", none, none⟩
      ⟨fun _ => some "/my-org/projects/1", none, [], fun _ => Except.ok none, fun _ => none⟩
      "test-token" "https://github.com/my-org/projects/1" "/my-org/projects/1"
      (by decide) (by decide) (by decide)).1,
    by decide⟩

/-- Counterexample to C10 as stated: a non-fatal run that loads zero
project items exits early with the informational message of line 162 and
never emits the trailing confirmation message. -/
theorem claim_C10_counterexample :
    (run exEnvOK exWorldNoItems).failed = none ∧
    exWorldNoItems.items = [] ∧
    (run exEnvOK exWorldNoItems).logs.getLast? =
      some "No project items found in this project. Exiting." ∧
    "Update process completed for all project items." ∉ (run exEnvOK exWorldNoItems).logs :=
  ⟨by decide, by decide, by decide, by decide⟩

/-- Claim C10 (amended): every fatal run ends with exactly one
failure-reporting call carrying the error message (the `failed` field of
the output, set once by the top-level catch); every non-fatal run that
loaded at least one project item ends by emitting the trailing
confirmation message; and a non-fatal run that loaded zero items exits
early with the informational zero-items message instead. -/
theorem claim_C10 (env : Env) (w : World) :
    (∃ m, (run env w).failed = some m) ∨
    ((run env w).failed = none ∧ w.items ≠ [] ∧
      (run env w).logs.getLast? = some "Update process completed for all project items.") ∨
    ((run env w).failed = none ∧ w.items = [] ∧
      (run env w).logs.getLast? = some "No project items found in this project. Exiting.") :=
  run_outcome_trichotomy env w
